import Mathlib

/-!
Verification of the vocabulary-extraction pipeline of `create_vocabulary_list.py`.

The script reads spreadsheet rows (via pandas), filters out numerals and proper
names except for a fixed allow-list of spelled-out number words, takes the first
200 surviving rows, formats up to 150 of them with grammatical prefixes, tallies
the emitted records by word class, and writes the result to JSON.

Modelling conventions for the shallow embedding:
- a spreadsheet cell is `Option Str` where `Str := List Char`; a missing cell
  (pandas `NaN`) is `none`;
- pandas boolean-mask filtering followed by `.head(200)` is `List.filter`
  followed by `List.take 200`;
- Python `word.split('(')[0]` is `takeWhile (· ≠ '(')`; Python `str.strip()`
  is `strip` below (drop whitespace from both ends);
- calling `.split` on a missing (`NaN`) cell raises `AttributeError`, modelled
  as `Except.error`; comparisons such as `NaN == 'verb'` are `False` in Python,
  modelled by `none = some _` being false;
- `pandas.Series.value_counts()` drops `NaN` keys (modelled by `filterMap`) and
  returns the count of each distinct remaining key.  Its descending-frequency
  ordering is irrelevant to the properties below and is not modelled;
- `pd.DataFrame([])['word_class']` raises `KeyError` because an empty frame has
  no columns: modelled as `Except.error` in `word_classes` when the record list
  is empty;
- console printing and file I/O are out of scope; `runScript` returns the pair
  of values that the script would print/dump, or the error that aborts it.
-/

/-- Character-list representation of Python strings. -/
abbrev Str := List Char

/-- One spreadsheet row, with the four columns the script reads.  Each cell may
be missing (`NaN` in pandas). -/
structure SourceRow where
  word : Option Str
  wordClass : Option Str
  grammar : Option Str
  cefr : Option Str
deriving DecidableEq

/-- One emitted vocabulary record (one element of the JSON output array).
`word` is always a genuine string (a missing source word aborts the run before
a record is built), while `word_class` and `cefr` are copied verbatim from the
row and can be missing. -/
structure VocabRecord where
  word : Str
  word_class : Option Str
  cefr : Option Str
deriving DecidableEq

/-- Python `str.strip()`: drop whitespace from both ends. -/
def strip (s : Str) : Str :=
  (((s.dropWhile Char.isWhitespace).reverse).dropWhile Char.isWhitespace).reverse

/-- The allow-list of spelled-out number words in the filter
(`['ett', 'en', 'två', ..., 'hundra', 'tusen']`). -/
def numberWords : List Str :=
  ["ett", "en", "två", "tre", "fyra", "fem", "sex", "sju", "åtta", "nio",
   "tio", "hundra", "tusen"].map String.toList

/-- The row mask of the `useful_words` filter:
`(~df['Word classes'].isin(['numeral', 'proper name'])) |
 (df['Swedish items for translation'].isin([...numberWords...]))`.
`isin` on a missing cell is `False`; the negated class test is therefore `True`
when the class cell is missing. -/
def isUseful (r : SourceRow) : Bool :=
  (!(decide (r.wordClass = some "numeral".toList)
     || decide (r.wordClass = some "proper name".toList)))
  || (match r.word with
      | some w => decide (w ∈ numberWords)
      | none => false)

/-- `useful_words = df[mask].head(200)`. -/
def usefulWords (rows : List SourceRow) : List SourceRow :=
  (rows.filter isUseful).take 200

/-- The `essential_words` list defined in the script.  (The script defines this
constant but never references it afterwards.) -/
def essential_words : List Str :=
  ["hej", "tack", "ja", "nej", "god", "morgon", "kväll", "dag", "natt",
   "familj", "barn", "mamma", "pappa", "mat", "vatten", "kaffe", "arbete",
   "skola", "hem", "vän", "pengar", "tid", "vecka", "månad", "idag", "imorgon",
   "igår", "snäll", "ledsen", "glad", "arg", "trött", "hungrig"].map String.toList

/-- The `if/elif` chain attaching the `att`/`en`/`ett` prefixes to an already
cleaned-up word. -/
def prefixRule (word_class grammar : Option Str) (word : Str) : Str :=
  if word_class = some "verb".toList then
    "att ".toList ++ word
  else if word_class = some "noun-en".toList ∧ grammar = some "en".toList then
    "en ".toList ++ word
  else if word_class = some "noun-ett".toList ∧ grammar = some "ett".toList then
    "ett ".toList ++ word
  else if word_class = some "noun-en".toList then
    "en ".toList ++ word
  else if word_class = some "noun-ett".toList then
    "ett ".toList ++ word
  else
    word

/-- The per-row formatting: `word = word.split('(')[0].strip()` followed by the
prefix chain. -/
def formatWord (w : Str) (word_class grammar : Option Str) : Str :=
  prefixRule word_class grammar (strip (w.takeWhile (fun c => !(decide (c = '(')))))

/-- The loop body over `useful_words`: break once `word_count >= 150`, read the
cells, abort with `AttributeError` when the word cell is missing (Python calls
`.split` on a float `NaN`), otherwise append the formatted record. -/
def buildVocab : List SourceRow → Nat → Except String (List VocabRecord)
  | [], _ => .ok []
  | r :: rs, count =>
    if 150 ≤ count then
      .ok []
    else
      match r.word with
      | none => .error "AttributeError: nan has no attribute split"
      | some w =>
        match buildVocab rs (count + 1) with
        | .error e => .error e
        | .ok rest =>
          .ok ({ word := formatWord w r.wordClass r.grammar,
                 word_class := r.wordClass,
                 cefr := r.cefr } :: rest)

/-- The record that the loop body appends for a row (used to state theorems;
`buildVocab` only reaches it when the word cell is present). -/
def mkRecord (r : SourceRow) : VocabRecord :=
  { word := formatWord (r.word.getD []) r.wordClass r.grammar,
    word_class := r.wordClass,
    cefr := r.cefr }

/-- The `vocabulary` list built by the script from the input rows. -/
def vocabulary (rows : List SourceRow) : Except String (List VocabRecord) :=
  buildVocab (usefulWords rows) 0

/-- `pd.DataFrame(vocabulary)['word_class'].value_counts()`: the distinct
present (non-`NaN`) word classes of the emitted records, each with its number
of occurrences.  (The descending sort of `value_counts` is not modelled; no
property below depends on the tally's order.) -/
def valueCounts (recs : List VocabRecord) : List (Str × Nat) :=
  let keys := recs.filterMap (fun rec => rec.word_class)
  keys.dedup.map (fun c => (c, keys.countP (fun k => decide (k = c))))

/-- The `word_classes` step.  On an empty `vocabulary`, `pd.DataFrame([])` has
no columns at all and the `['word_class']` lookup raises `KeyError`. -/
def word_classes (recs : List VocabRecord) : Except String (List (Str × Nat)) :=
  if recs.isEmpty then .error "KeyError: word_class"
  else .ok (valueCounts recs)

/-- The two values the script produces: the vocabulary list written to
`vocabulary-base.json` and the word-class tally printed as the distribution. -/
structure ScriptOutput where
  vocab : List VocabRecord
  tally : List (Str × Nat)
deriving DecidableEq

/-- The whole run: build the vocabulary, compute the distribution, and only
then write the JSON artifact.  An error at any step aborts before the artifact
is written. -/
def runScript (rows : List SourceRow) : Except String ScriptOutput :=
  match vocabulary rows with
  | .error e => .error e
  | .ok v =>
    match word_classes v with
    | .error e => .error e
    | .ok t => .ok ⟨v, t⟩

/-- Total output length, 0 for an aborted run (used to state length claims
without an existential). -/
def vocabLen (e : Except String (List VocabRecord)) : Nat :=
  match e with
  | .ok v => v.length
  | .error _ => 0

/-- Whether a run result is a success. -/
def isOkB (e : Except String (List VocabRecord)) : Bool :=
  match e with
  | .ok _ => true
  | .error _ => false

/-- Whether every record of a successful result has a non-empty word after
trimming; false for an aborted run. -/
def allWordsNonblank (e : Except String (List VocabRecord)) : Bool :=
  match e with
  | .ok v => v.all (fun rec => !(strip rec.word).isEmpty)
  | .error _ => false

/-- Sum of the per-class counts of a tally. -/
def sumCounts (t : List (Str × Nat)) : Nat :=
  (t.map Prod.snd).sum

/-- Row predicate used by the amended C4: the word cell is present and the part
before the first `(` contains a non-whitespace character. -/
def hasContentWord (r : SourceRow) : Bool :=
  match r.word with
  | some w => (w.takeWhile (fun c => !(decide (c = '(')))).any (fun c => !c.isWhitespace)
  | none => false

/-! ### Concrete fixture rows -/

/-- Fixture: an ordinary `noun-en` row. -/
def rowBil : SourceRow :=
  ⟨some "bil".toList, some "noun-en".toList, some "en".toList, some "A1".toList⟩

/-- Fixture: a proper-name row, excluded by the class filter. -/
def rowStockholm : SourceRow :=
  ⟨some "Stockholm".toList, some "proper name".toList, none, some "A1".toList⟩

/-- Fixture: an ordinary verb row. -/
def rowSpringa : SourceRow :=
  ⟨some "springa".toList, some "verb".toList, none, some "A2".toList⟩

/-- Fixture: a verb row with a parenthetical suffix in the word cell. -/
def rowSpringaParen : SourceRow :=
  ⟨some "springa (sprang, sprungit)".toList, some "verb".toList, none, some "A2".toList⟩

/-- Fixture: a numeral row whose word cell has surrounding whitespace. -/
def rowTreSpaced : SourceRow :=
  ⟨some " tre ".toList, some "numeral".toList, none, some "A1".toList⟩

/-- Fixture: a numeral row for the essential word `hej`. -/
def rowHejNumeral : SourceRow :=
  ⟨some "hej".toList, some "numeral".toList, none, some "A1".toList⟩

/-! ### Helper lemmas -/

/-- An element that fails the predicate survives `dropWhile`. -/
theorem mem_dropWhile_of_not {p : Char → Bool} {c : Char} :
    ∀ {l : Str}, c ∈ l → p c = false → c ∈ l.dropWhile p
  | x :: xs, h, hp => by
    by_cases hx : p x
    · rw [List.dropWhile_cons_of_pos hx]
      rcases List.mem_cons.mp h with rfl | h2
      · rw [hx] at hp; exact absurd hp (by simp)
      · exact mem_dropWhile_of_not h2 hp
    · rw [List.dropWhile_cons_of_neg hx]
      exact h

/-- A non-whitespace character of `s` survives `strip`. -/
theorem mem_strip {c : Char} {s : Str} (h : c ∈ s) (hw : c.isWhitespace = false) :
    c ∈ strip s := by
  unfold strip
  rw [List.mem_reverse]
  exact mem_dropWhile_of_not (List.mem_reverse.mpr (mem_dropWhile_of_not h hw)) hw

/-- A string with a non-whitespace character does not strip to empty. -/
theorem strip_ne_nil {c : Char} {s : Str} (h : c ∈ s) (hw : c.isWhitespace = false) :
    strip s ≠ [] := by
  intro hnil
  have := mem_strip h hw
  rw [hnil] at this
  exact List.not_mem_nil c this

/-- Unfolding `mkRecord` when the word cell is known. -/
theorem mkRecord_eq {r : SourceRow} {w : Str} (hw : r.word = some w) :
    mkRecord r = { word := formatWord w r.wordClass r.grammar,
                   word_class := r.wordClass, cefr := r.cefr } := by
  simp [mkRecord, hw]

/-- When every row in the processed prefix has its word cell present, the loop
emits exactly the records of that prefix, in order. -/
theorem buildVocab_eq_map :
    ∀ (l : List SourceRow) (count : Nat),
      (∀ r ∈ l.take (150 - count), r.word.isSome) →
      buildVocab l count = .ok ((l.take (150 - count)).map mkRecord)
  | [], count, _ => by simp [buildVocab]
  | r :: rs, count, h => by
    by_cases hc : 150 ≤ count
    · have h0 : 150 - count = 0 := Nat.sub_eq_zero_of_le hc
      simp [buildVocab, hc, h0]
    · have hstep : 150 - count = (150 - (count + 1)) + 1 := by omega
      rw [hstep] at h ⊢
      rw [List.take_succ_cons] at h ⊢
      have hr : r.word.isSome := h r (List.mem_cons_self r _)
      obtain ⟨w, hw⟩ := Option.isSome_iff_exists.mp hr
      have ih := buildVocab_eq_map rs (count + 1)
        (fun x hx => h x (List.mem_cons_of_mem r hx))
      rw [List.map_cons, mkRecord_eq hw]
      simp only [buildVocab, if_neg hc, hw, ih]

/-- A missing word cell in the processed prefix aborts the loop. -/
theorem buildVocab_err :
    ∀ (l : List SourceRow) (count : Nat),
      (∃ r ∈ l.take (150 - count), r.word = none) →
      isOkB (buildVocab l count) = false
  | [], _, h => by simp at h
  | r :: rs, count, h => by
    by_cases hc : 150 ≤ count
    · have h0 : 150 - count = 0 := Nat.sub_eq_zero_of_le hc
      rw [h0] at h
      simp at h
    · have hstep : 150 - count = (150 - (count + 1)) + 1 := by omega
      rw [hstep, List.take_succ_cons] at h
      obtain ⟨x, hx, hxnone⟩ := h
      rcases List.mem_cons.mp hx with rfl | hx2
      · simp [buildVocab, if_neg hc, hxnone, isOkB]
      · cases hrw : r.word with
        | none => simp [buildVocab, if_neg hc, hrw, isOkB]
        | some w =>
          have ih := buildVocab_err rs (count + 1) ⟨x, hx2, hxnone⟩
          simp only [buildVocab, if_neg hc, hrw]
          cases hb : buildVocab rs (count + 1) with
          | ok v => rw [hb] at ih; simp [isOkB] at ih
          | error e => simp [isOkB]

/-- Each record of a successful loop run copies its `word_class` and `cefr`
cells from some processed row. -/
theorem buildVocab_ok_mem :
    ∀ (l : List SourceRow) (count : Nat) (v : List VocabRecord),
      buildVocab l count = .ok v →
      ∀ rec ∈ v, ∃ r ∈ l, rec.word_class = r.wordClass ∧ rec.cefr = r.cefr
  | [], _, v, h => by
    simp only [buildVocab, Except.ok.injEq] at h
    subst h
    intro rec hrec
    simp at hrec
  | r :: rs, count, v, h => by
    by_cases hc : 150 ≤ count
    · simp only [buildVocab, if_pos hc, Except.ok.injEq] at h
      subst h
      intro rec hrec
      simp at hrec
    · simp only [buildVocab, if_neg hc] at h
      cases hrw : r.word with
      | none => rw [hrw] at h; exact absurd h (by simp)
      | some w =>
        rw [hrw] at h
        cases hb : buildVocab rs (count + 1) with
        | error e => rw [hb] at h; exact absurd h (by simp)
        | ok rest =>
          rw [hb] at h
          simp only [Except.ok.injEq] at h
          subst h
          intro rec hrec
          rcases List.mem_cons.mp hrec with rfl | hrec2
          · exact ⟨r, List.mem_cons_self r rs, rfl, rfl⟩
          · obtain ⟨x, hx, hcls⟩ := buildVocab_ok_mem rs (count + 1) rest hb rec hrec2
            exact ⟨x, List.mem_cons_of_mem r hx, hcls⟩

/-- When every record has a present `word_class`, extracting the classes keeps
the length. -/
theorem filterMap_wordClass_length :
    ∀ (recs : List VocabRecord),
      (∀ rec ∈ recs, rec.word_class.isSome) →
      (recs.filterMap (fun rec => rec.word_class)).length = recs.length
  | [], _ => rfl
  | rec :: recs, h => by
    obtain ⟨c, hc⟩ := Option.isSome_iff_exists.mp (h rec (List.mem_cons_self rec recs))
    have ih := filterMap_wordClass_length recs (fun x hx => h x (List.mem_cons_of_mem rec hx))
    simp [List.filterMap_cons, hc, ih]

/-- The `noun-en` branches of the prefix chain give the same result for every
grammar marker. -/
theorem prefixRule_noun_en (g : Option Str) (word : Str) :
    prefixRule (some "noun-en".toList) g word = "en ".toList ++ word := by
  rw [prefixRule, if_neg (by decide)]
  by_cases hg : g = some "en".toList
  · rw [if_pos ⟨rfl, hg⟩]
  · rw [if_neg (fun hcon => hg hcon.2),
        if_neg (fun hcon => absurd hcon.1 (by decide)),
        if_pos rfl]

/-- The `noun-ett` branches of the prefix chain give the same result for every
grammar marker. -/
theorem prefixRule_noun_ett (g : Option Str) (word : Str) :
    prefixRule (some "noun-ett".toList) g word = "ett ".toList ++ word := by
  rw [prefixRule, if_neg (by decide),
      if_neg (fun hcon => absurd hcon.1 (by decide))]
  by_cases hg : g = some "ett".toList
  · rw [if_pos ⟨rfl, hg⟩]
  · rw [if_neg (fun hcon => hg hcon.2),
        if_neg (by decide),
        if_pos rfl]

/-- A cleaned-up word containing a non-whitespace character still contains one
after the prefix chain, so the formatted word does not strip to empty. -/
theorem strip_prefixRule_ne_nil {word : Str} (word_class grammar : Option Str)
    (h : ∃ c ∈ word, c.isWhitespace = false) :
    strip (prefixRule word_class grammar word) ≠ [] := by
  obtain ⟨c, hc, hcw⟩ := h
  rw [prefixRule]
  split_ifs
  all_goals
    first
    | exact strip_ne_nil (List.mem_append_right _ hc) hcw
    | exact strip_ne_nil hc hcw

/-- Strip preserves the presence of a non-whitespace character. -/
theorem exists_nonws_strip {s : Str} (h : ∃ c ∈ s, c.isWhitespace = false) :
    ∃ c ∈ strip s, c.isWhitespace = false := by
  obtain ⟨c, hc, hcw⟩ := h
  exact ⟨c, mem_strip hc hcw, hcw⟩

/-! ### Claims -/

/-- C1: the claim says every headword of `essentialWords` that occurs in the
source is force-included in the output regardless of word class.  The script
defines `essential_words` (with the comment that these words are essential and
should also be included) but never uses it: a row whose word is the essential
word `hej` and whose class falls to the numeral/proper-name filter produces no
record at all.  This theorem evaluates the code at that failing input: `hej` is
in the essential set, occurs in the source rows, yet the output is empty. -/
theorem essential_word_hej_dropped :
    "hej".toList ∈ essential_words ∧
    vocabulary [rowHejNumeral] = .ok [] :=
  ⟨by decide, rfl⟩

/-- C2 counterexample: the claim says eligibility tests the TRIMMED word cell
against the allow-list, so the numeral row `" tre "` (trimming to the listed
word `tre`) would be eligible.  The mask `df['Swedish items for
translation'].isin([...])` compares the raw cell: `" tre "` is not in the list,
the row is filtered out, and the output is empty. -/
theorem trimmed_tre_not_eligible :
    strip " tre ".toList ∈ numberWords ∧
    isUseful rowTreSpaced = false ∧
    vocabulary [rowTreSpaced] = .ok [] :=
  ⟨by decide, by decide, rfl⟩

/-- C2 (amended): a row with both cells present is eligible if and only if its
word class is neither `numeral` nor `proper name`, or its RAW (untrimmed) word
cell is exactly one of the allow-listed number words. -/
theorem isUseful_iff_raw_word (r : SourceRow) (w c : Str)
    (hw : r.word = some w) (hc : r.wordClass = some c) :
    isUseful r = true ↔
      (¬(c = "numeral".toList ∨ c = "proper name".toList) ∨ w ∈ numberWords) := by
  rw [isUseful, hw, hc]
  simp [not_or]

/-- Witness for the amended C2 at the allow-listed numeral row `tre`. -/
theorem isUseful_iff_raw_word_witness :
    (⟨some "tre".toList, some "numeral".toList, none, some "A1".toList⟩ : SourceRow).word
        = some "tre".toList ∧
    (⟨some "tre".toList, some "numeral".toList, none, some "A1".toList⟩ : SourceRow).wordClass
        = some "numeral".toList ∧
    (isUseful ⟨some "tre".toList, some "numeral".toList, none, some "A1".toList⟩ = true ↔
      (¬("numeral".toList = "numeral".toList ∨ "numeral".toList = "proper name".toList)
        ∨ "tre".toList ∈ numberWords)) :=
  ⟨rfl, rfl, isUseful_iff_raw_word _ _ _ rfl rfl⟩

/-- C3: when every row has its word cell present, the output length is at most
150, and when the candidate pool (the first 200 eligible rows) has fewer than
150 rows the output length equals the pool size exactly. -/
theorem output_length_bound (rows : List SourceRow)
    (h : rows.all (fun r => r.word.isSome) = true) :
    vocabLen (vocabulary rows) ≤ 150 ∧
    ((usefulWords rows).length < 150 →
      vocabLen (vocabulary rows) = (usefulWords rows).length) := by
  have hall : ∀ r ∈ (usefulWords rows).take 150, r.word.isSome := by
    intro r hr
    exact List.all_eq_true.mp h r
      (List.mem_of_mem_filter (List.mem_of_mem_take (List.mem_of_mem_take hr)))
  have hchar := buildVocab_eq_map (usefulWords rows) 0 hall
  rw [vocabulary, hchar]
  simp only [vocabLen, List.length_map, List.length_take, Nat.sub_zero]
  exact ⟨Nat.min_le_left _ _, fun hlt => Nat.min_eq_right (Nat.le_of_lt hlt)⟩

/-- Witness for C3 on a three-row input whose pool has two rows. -/
theorem output_length_bound_witness :
    [rowBil, rowStockholm, rowSpringa].all (fun r => r.word.isSome) = true ∧
    (vocabLen (vocabulary [rowBil, rowStockholm, rowSpringa]) ≤ 150 ∧
      ((usefulWords [rowBil, rowStockholm, rowSpringa]).length < 150 →
        vocabLen (vocabulary [rowBil, rowStockholm, rowSpringa])
          = (usefulWords [rowBil, rowStockholm, rowSpringa]).length)) :=
  ⟨by decide, output_length_bound _ (by decide)⟩

/-- C4 counterexample: the claim says every emitted record's word is non-empty
after trimming, including for source words that begin with `(` or consist only
of whitespace/parenthetical text.  A row whose word is `(hej)` with a class
outside the prefix rules yields the record word `""`. -/
theorem blank_word_emitted :
    vocabulary [⟨some "(hej)".toList, some "adverb".toList, none, some "A1".toList⟩]
      = .ok [⟨[], some "adverb".toList, some "A1".toList⟩] := rfl

/-- C4 (amended): when every row's word cell has a non-whitespace character
before its first `(`, every emitted record's word is non-empty after trimming.
(Rows violating that, e.g. a word consisting only of parenthetical text, can
produce an empty word when their class gets no prefix.) -/
theorem output_words_nonblank (rows : List SourceRow)
    (h : rows.all hasContentWord = true) :
    allWordsNonblank (vocabulary rows) = true := by
  have hsome : ∀ r ∈ rows, r.word.isSome := by
    intro r hr
    have hcw := List.all_eq_true.mp h r hr
    rw [hasContentWord] at hcw
    cases hw : r.word with
    | none => rw [hw] at hcw; simp at hcw
    | some w => simp [hw]
  have hall : ∀ r ∈ (usefulWords rows).take 150, r.word.isSome := fun r hr =>
    hsome r (List.mem_of_mem_filter (List.mem_of_mem_take (List.mem_of_mem_take hr)))
  have hchar := buildVocab_eq_map (usefulWords rows) 0 hall
  rw [vocabulary, hchar, allWordsNonblank, List.all_eq_true]
  intro rec hrec
  obtain ⟨r, hrmem, hreq⟩ := List.mem_map.mp hrec
  obtain ⟨w, hw⟩ := Option.isSome_iff_exists.mp (hall r hrmem)
  have hrrows : r ∈ rows :=
    List.mem_of_mem_filter (List.mem_of_mem_take (List.mem_of_mem_take hrmem))
  have hcw := List.all_eq_true.mp h r hrrows
  rw [hasContentWord, hw] at hcw
  have hex : ∃ c ∈ w.takeWhile (fun c => !(decide (c = '('))), c.isWhitespace = false := by
    obtain ⟨c, hc, hcb⟩ := List.any_eq_true.mp hcw
    exact ⟨c, hc, by simpa using hcb⟩
  have hne := strip_prefixRule_ne_nil r.wordClass r.grammar (exists_nonws_strip hex)
  rw [← hreq, mkRecord_eq hw]
  simp only [formatWord]
  cases hl : strip (prefixRule r.wordClass r.grammar
      (strip (w.takeWhile (fun c => !(decide (c = '(')))))) with
  | nil => exact absurd hl hne
  | cons a as => rfl

/-- Witness for the amended C4 on a verb row with a parenthetical suffix. -/
theorem output_words_nonblank_witness :
    [rowSpringaParen].all hasContentWord = true ∧
    allWordsNonblank (vocabulary [rowSpringaParen]) = true :=
  ⟨by decide, output_words_nonblank _ (by decide)⟩

/-- C5 counterexample: the claim says a row lacking `wordClass` or `cefr`
aborts the run and that no record with a missing field is ever emitted.  A row
whose class and CEFR cells are both missing (NaN) sails through: every
comparison with NaN is false, so the row passes the filter and the else branch
of the formatter, and a record with both fields absent is emitted; the whole
run completes (value_counts simply drops the NaN key). -/
theorem missing_class_cefr_silent :
    vocabulary [⟨some "bil".toList, none, none, none⟩]
      = .ok [⟨"bil".toList, none, none⟩] ∧
    runScript [⟨some "bil".toList, none, none, none⟩]
      = .ok ⟨[⟨"bil".toList, none, none⟩], []⟩ :=
  ⟨rfl, rfl⟩

/-- C5 (amended): only a missing `word` cell aborts the run (Python raises
`AttributeError` when `.split` is called on the NaN float), and only when the
row is among the processed candidates (the first 150 of the pool). -/
theorem missing_word_aborts (rows : List SourceRow)
    (h : ((usefulWords rows).take 150).any (fun r => r.word.isNone) = true) :
    isOkB (vocabulary rows) = false := by
  rw [vocabulary]
  apply buildVocab_err
  obtain ⟨r, hr, hnone⟩ := List.any_eq_true.mp h
  exact ⟨r, hr, Option.isNone_iff_eq_none.mp hnone⟩

/-- Witness for the amended C5: a single eligible row with a missing word cell
aborts the run. -/
theorem missing_word_aborts_witness :
    ((usefulWords [⟨none, some "verb".toList, none, none⟩]).take 150).any
        (fun r => r.word.isNone) = true ∧
    isOkB (vocabulary [⟨none, some "verb".toList, none, none⟩]) = false :=
  ⟨by decide, missing_word_aborts _ (by decide)⟩

/-- C6: for a `noun-en` or `noun-ett` row the formatted word does not depend on
the grammar cell: both the marker-matching branch and the fallback branch of
each class attach the same article. -/
theorem noun_format_grammar_independent (w : Str) (wc g1 g2 : Option Str)
    (h : wc = some "noun-en".toList ∨ wc = some "noun-ett".toList) :
    formatWord w wc g1 = formatWord w wc g2 := by
  rcases h with rfl | rfl
  · rw [formatWord, formatWord, prefixRule_noun_en, prefixRule_noun_en]
  · rw [formatWord, formatWord, prefixRule_noun_ett, prefixRule_noun_ett]

/-- Witness for C6: `bil` with a matching marker and with an absent marker. -/
theorem noun_format_grammar_independent_witness :
    (some "noun-en".toList = some "noun-en".toList
      ∨ some "noun-en".toList = some "noun-ett".toList) ∧
    formatWord "bil".toList (some "noun-en".toList) (some "en".toList)
      = formatWord "bil".toList (some "noun-en".toList) none :=
  ⟨Or.inl rfl, noun_format_grammar_independent _ _ _ _ (Or.inl rfl)⟩

/-- C7: formatting first cuts the word at the first `(`, then trims, then
attaches the class prefix; on `springa (sprang, sprungit)` as a verb the result
is exactly `att springa` (had the trim happened before the cut, the trailing
space of `springa ` would survive). -/
theorem paren_strip_then_trim_example :
    formatWord "springa (sprang, sprungit)".toList (some "verb".toList) none
      = "att springa".toList ∧
    vocabulary [rowSpringaParen]
      = .ok [⟨"att springa".toList, some "verb".toList, some "A2".toList⟩] :=
  ⟨by decide, rfl⟩

/-- C8: when a run completes and every row's class cell is present, the sum of
the per-class counts of the tally (computed over the emitted records only)
equals the output list length exactly. -/
theorem tally_sum_eq_output_length (rows : List SourceRow) (out : ScriptOutput)
    (hrun : runScript rows = .ok out)
    (hcls : rows.all (fun r => r.wordClass.isSome) = true) :
    sumCounts out.tally = out.vocab.length := by
  rw [runScript] at hrun
  split at hrun
  · exact absurd hrun (by simp)
  · rename_i v hv
    split at hrun
    · exact absurd hrun (by simp)
    · rename_i t ht
      simp only [Except.ok.injEq] at hrun
      subst hrun
      rw [word_classes] at ht
      by_cases hemp : v.isEmpty
      · rw [if_pos hemp] at ht; exact absurd ht (by simp)
      · rw [if_neg hemp] at ht
        simp only [Except.ok.injEq] at ht
        subst ht
        rw [vocabulary] at hv
        have hvcls : ∀ rec ∈ v, rec.word_class.isSome := by
          intro rec hrec
          obtain ⟨r, hrmem, hcls2, _⟩ :=
            buildVocab_ok_mem (usefulWords rows) 0 v hv rec hrec
          rw [hcls2]
          exact List.all_eq_true.mp hcls r
            (List.mem_of_mem_filter (List.mem_of_mem_take hrmem))
        simp only [sumCounts, valueCounts, List.map_map, Function.comp_def]
        have hsum :=
          List.sum_map_count_dedup_eq_length (v.filterMap (fun rec => rec.word_class))
        rw [show ((v.filterMap (fun rec => rec.word_class)).dedup.map
              (fun c => (v.filterMap (fun rec => rec.word_class)).countP
                (fun k => decide (k = c)))).sum
            = (v.filterMap (fun rec => rec.word_class)).length from hsum,
          filterMap_wordClass_length v hvcls]

/-- Witness for C8 on a two-row input with two distinct classes. -/
theorem tally_sum_eq_output_length_witness :
    runScript [rowBil, rowSpringa]
      = .ok ⟨[⟨"en bil".toList, some "noun-en".toList, some "A1".toList⟩,
              ⟨"att springa".toList, some "verb".toList, some "A2".toList⟩],
             [("noun-en".toList, 1), ("verb".toList, 1)]⟩ ∧
    [rowBil, rowSpringa].all (fun r => r.wordClass.isSome) = true ∧
    sumCounts ([("noun-en".toList, 1), ("verb".toList, 1)] : List (Str × Nat))
      = ([⟨"en bil".toList, some "noun-en".toList, some "A1".toList⟩,
          ⟨"att springa".toList, some "verb".toList, some "A2".toList⟩]
          : List VocabRecord).length :=
  ⟨rfl, by decide,
    tally_sum_eq_output_length [rowBil, rowSpringa] _ rfl (by decide)⟩

/-- C9: when every row's word cell is present, the output is exactly the
record-by-record image of a prefix of the filtered pool (the first 150 of the
first 200 eligible rows) in their original order, so eligible rows that are
both emitted keep their relative order; no reordering or sorting occurs. -/
theorem output_preserves_order (rows : List SourceRow)
    (h : rows.all (fun r => r.word.isSome) = true) :
    vocabulary rows = .ok (((usefulWords rows).take 150).map mkRecord) := by
  have hall : ∀ r ∈ (usefulWords rows).take 150, r.word.isSome := by
    intro r hr
    exact List.all_eq_true.mp h r
      (List.mem_of_mem_filter (List.mem_of_mem_take (List.mem_of_mem_take hr)))
  exact buildVocab_eq_map (usefulWords rows) 0 hall

/-- Witness for C9 on the three-row scenario of the spec (the proper name is
dropped, the order of the two surviving rows is preserved). -/
theorem output_preserves_order_witness :
    [rowBil, rowStockholm, rowSpringa].all (fun r => r.word.isSome) = true ∧
    vocabulary [rowBil, rowStockholm, rowSpringa]
      = .ok (((usefulWords [rowBil, rowStockholm, rowSpringa]).take 150).map mkRecord) :=
  ⟨by decide, output_preserves_order _ (by decide)⟩

/-- C10: when no row passes the inclusion rule the vocabulary list is empty and
the run aborts at the word-class distribution step (`pd.DataFrame([])` has no
`word_class` column, so the lookup raises `KeyError`) before the JSON artifact
is written: an input with no eligible rows never produces an empty
`vocabulary-base.json`. -/
theorem empty_pool_fails_before_write (rows : List SourceRow)
    (h : rows.filter isUseful = []) :
    runScript rows = .error "KeyError: word_class" := by
  have hv : vocabulary rows = .ok [] := by
    rw [vocabulary, usefulWords, h]
    rfl
  rw [runScript, hv]
  rfl

/-- Witness for C10: a single proper-name row leaves the pool empty and the run
fails with the `KeyError`. -/
theorem empty_pool_fails_before_write_witness :
    [rowStockholm].filter isUseful = [] ∧
    runScript [rowStockholm] = .error "KeyError: word_class" :=
  ⟨by decide, empty_pool_fails_before_write _ (by decide)⟩

